import Mathlib

/-!
Shallow embedding of the MSCAN CAN-bus driver
(`src/Old_CW_projects/Axman/Sources/mscan.c`) and proofs of the spec's claims.

The driver's state split:
* the receive mailbox: the file-scope `rxbuffer[PAYLOAD_SIZE]` array and the
  `data_available_flag` byte;
* the transmit hardware registers touched by `CANsend`;
* the acceptance-filter registers programmed by `CANinit`.

Machine bytes/words are modelled as `Nat`; where C truncation matters a
`% 2^w` is written explicitly.
-/

namespace Mscan

/-- Modelled from the spec: `PAYLOAD_SIZE` is defined in `mscan.h`, which is
not part of the repository snapshot; the spec fixes the mailbox at the CAN
maximum payload of 8 bytes. -/
def PAYLOAD_SIZE : Nat := 8

/-- The interrupt/foreground shared state of `mscan.c`:
`static byte volatile rxbuffer[PAYLOAD_SIZE]` and
`static byte volatile data_available_flag`. -/
structure MailboxState where
  rxbuffer : List Nat
  data_available_flag : Nat
deriving Repr, DecidableEq

/-- Initial values of the file-scope statics: `rxbuffer = {0}`, flag `= 0`. -/
def initMailbox : MailboxState :=
  { rxbuffer := List.replicate PAYLOAD_SIZE 0, data_available_flag := 0 }

/-- The copy loop `for(i=0; i<len; i++) dst[i] = src(i);` shared by
`CANreceiveISR` (peripheral registers into `rxbuffer`) and `CANsend`
(payload into the data-segment registers): positions `0..len-1` of `dst`
are overwritten with `src 0, .., src (len-1)`, the rest kept. -/
def copyLoop (dst : List Nat) (src : Nat → Nat) : Nat → List Nat
  | 0 => dst
  | n + 1 => (copyLoop dst src n).set n (src n)

/-- `CANreceiveISR`: reads the DLC `length` from `CANRXDLR_DLC`, copies
`length` bytes from the sequential receive data-segment registers
(`&CANRXDSR0 + i`, modelled by `rxdsr`) into `rxbuffer`, reads (and
discards) the 16-bit timestamp, and sets `data_available_flag = 1`.
Clearing `CANRFLG` releases the peripheral buffer and is not part of the
driver state. -/
def CANreceiveISR (length : Nat) (rxdsr : Nat → Nat) (s : MailboxState) :
    MailboxState :=
  { rxbuffer := copyLoop s.rxbuffer rxdsr length, data_available_flag := 1 }

/-- `CANget`: copies the `PAYLOAD_SIZE` bytes of `rxbuffer`, in index order,
into the caller's `dataMessage`; the returned list is the filled message.
The `DisableInterrupts`/`EnableInterrupts` bracket around the loop is
modelled separately (see the race model below). -/
def CANget (s : MailboxState) : List Nat :=
  (List.range PAYLOAD_SIZE).map fun i => s.rxbuffer.getD i 0

/-- `data_available`: returns the flag byte. -/
def data_available (s : MailboxState) : Nat := s.data_available_flag

/-- `data_used`: clears the flag (inside a critical section). -/
def data_used (s : MailboxState) : MailboxState :=
  { s with data_available_flag := 0 }

/- ### Helper lemmas about the copy loop -/

theorem copyLoop_length (dst : List Nat) (src : Nat → Nat) (n : Nat) :
    (copyLoop dst src n).length = dst.length := by
  induction n with
  | zero => rfl
  | succ n ih => simp [copyLoop, ih]

theorem copyLoop_getD_lt (dst : List Nat) (src : Nat → Nat) {n i : Nat}
    (hi : i < n) (hn : n ≤ dst.length) :
    (copyLoop dst src n).getD i 0 = src i := by
  induction n with
  | zero => omega
  | succ n ih =>
    simp only [copyLoop]
    rcases Nat.lt_or_ge i n with h | h
    · rw [List.getD_eq_getElem?_getD, List.getElem?_set_ne (by omega),
        ← List.getD_eq_getElem?_getD]
      exact ih h (by omega)
    · have hin : i = n := by omega
      subst hin
      rw [List.getD_eq_getElem?_getD,
        List.getElem?_set_self (by rw [copyLoop_length]; omega)]
      rfl

theorem copyLoop_getD_ge (dst : List Nat) (src : Nat → Nat) {n i : Nat}
    (hi : n ≤ i) :
    (copyLoop dst src n).getD i 0 = dst.getD i 0 := by
  induction n with
  | zero => rfl
  | succ n ih =>
    simp only [copyLoop]
    rw [List.getD_eq_getElem?_getD, List.getElem?_set_ne (by omega),
      ← List.getD_eq_getElem?_getD]
    exact ih (by omega)

theorem copyLoop_congr (dst : List Nat) (p q : Nat → Nat) (n : Nat)
    (h : ∀ i, i < n → p i = q i) :
    copyLoop dst p n = copyLoop dst q n := by
  induction n with
  | zero => rfl
  | succ n ih =>
    simp only [copyLoop]
    rw [ih (fun i hi => h i (by omega)), h n (by omega)]

theorem CANget_getD (s : MailboxState) {i : Nat} (hi : i < PAYLOAD_SIZE) :
    (CANget s).getD i 0 = s.rxbuffer.getD i 0 := by
  rw [CANget, List.getD_eq_getElem?_getD, List.getElem?_map,
    List.getElem?_range hi]
  rfl

/-- C1: after `CANreceiveISR` runs for a message of length `L ≤ 8`,
`data_available` is non-zero, the first `L` bytes `CANget` yields equal the
peripheral data-register bytes in order, and bytes at index `≥ L` equal
whatever the mailbox held before (not zero-filled). -/
theorem receive_then_get (s : MailboxState) (L : Nat) (rxdsr : Nat → Nat)
    (hbuf : s.rxbuffer.length = PAYLOAD_SIZE) (hL : L ≤ 8) :
    data_available (CANreceiveISR L rxdsr s) ≠ 0 ∧
    (∀ i, i < L → (CANget (CANreceiveISR L rxdsr s)).getD i 0 = rxdsr i) ∧
    (∀ i, L ≤ i → i < PAYLOAD_SIZE →
      (CANget (CANreceiveISR L rxdsr s)).getD i 0 = s.rxbuffer.getD i 0) := by
  have h8 : s.rxbuffer.length = 8 := by simpa [PAYLOAD_SIZE] using hbuf
  refine ⟨by simp [data_available, CANreceiveISR], ?_, ?_⟩
  · intro i hi
    rw [CANget_getD _ (show i < PAYLOAD_SIZE by simp [PAYLOAD_SIZE]; omega)]
    exact copyLoop_getD_lt _ _ hi (by omega)
  · intro i hLi hi
    rw [CANget_getD _ hi]
    exact copyLoop_getD_ge _ _ hLi

/-- Concrete mailbox used by witnesses: a buffer of eight 9s, flag clear. -/
def mbNines : MailboxState := { rxbuffer := [9, 9, 9, 9, 9, 9, 9, 9], data_available_flag := 0 }

/-- Witness for C1 at `L = 3`, data bytes `1,2,3`, prior buffer all 9s. -/
theorem receive_then_get_witness :
    data_available (CANreceiveISR 3 (fun i => i + 1) mbNines) ≠ 0 ∧
    (CANget (CANreceiveISR 3 (fun i => i + 1) mbNines)).getD 1 0 = 2 ∧
    (CANget (CANreceiveISR 3 (fun i => i + 1) mbNines)).getD 5 0 = 9 :=
  ⟨(receive_then_get mbNines 3 (fun i => i + 1) rfl (by decide)).1,
   (receive_then_get mbNines 3 (fun i => i + 1) rfl (by decide)).2.1 1 (by decide),
   (receive_then_get mbNines 3 (fun i => i + 1) rfl (by decide)).2.2 5 (by decide) (by decide)⟩

/-- C5 counterexample input: buffer of zeros; a first message of 8 bytes 5,
then a second message of 2 bytes 7 before `data_used`. -/
def mbZero : MailboxState := { rxbuffer := List.replicate 8 0, data_available_flag := 0 }

/-- C5 as stated is false: after a full-length first message (8 bytes of 5)
is overwritten by a 2-byte second message (bytes 7), `CANget` still yields a
first-message byte 5 at index 2 — the older data is observable, the mailbox
does not contain only the second message's bytes. -/
theorem second_receive_counterexample :
    (CANget (CANreceiveISR 2 (fun _ => 7)
      (CANreceiveISR 8 (fun _ => 5) mbZero))).getD 2 0 = 5 := by decide

/-- C5 amended: when a second message of length `L2 ≤ 8` arrives before
`data_used`, the mailbox's first `L2` bytes are the second message's bytes;
bytes at index `≥ L2` keep their prior (possibly first-message) content; and
when `L2 = 8` the mailbox depends only on the second message — the older
message is then unobservable through `CANget`. -/
theorem second_receive_overwrites (s : MailboxState) (L1 L2 : Nat)
    (d1 d2 : Nat → Nat) (hbuf : s.rxbuffer.length = PAYLOAD_SIZE)
    (_hL1 : L1 ≤ 8) (hL2 : L2 ≤ 8) :
    data_available (CANreceiveISR L2 d2 (CANreceiveISR L1 d1 s)) ≠ 0 ∧
    (∀ i, i < L2 →
      (CANget (CANreceiveISR L2 d2 (CANreceiveISR L1 d1 s))).getD i 0 = d2 i) ∧
    (L2 = 8 →
      CANget (CANreceiveISR L2 d2 (CANreceiveISR L1 d1 s)) =
        CANget (CANreceiveISR L2 d2 s)) := by
  have h8 : s.rxbuffer.length = 8 := by simpa [PAYLOAD_SIZE] using hbuf
  have hbuf1 : (CANreceiveISR L1 d1 s).rxbuffer.length = 8 := by
    simpa [CANreceiveISR, copyLoop_length] using h8
  refine ⟨by simp [data_available, CANreceiveISR], ?_, ?_⟩
  · intro i hi
    rw [CANget_getD _ (show i < PAYLOAD_SIZE by simp [PAYLOAD_SIZE]; omega)]
    exact copyLoop_getD_lt _ _ hi (by omega)
  intro hL2eq
  subst hL2eq
  unfold CANget
  apply List.map_congr_left
  intro i hi
  have hi8 : i < 8 := by simpa [PAYLOAD_SIZE] using List.mem_range.mp hi
  show (CANreceiveISR 8 d2 (CANreceiveISR L1 d1 s)).rxbuffer.getD i 0 =
    (CANreceiveISR 8 d2 s).rxbuffer.getD i 0
  simp only [CANreceiveISR]
  rw [copyLoop_getD_lt _ _ hi8 (by rw [copyLoop_length]; omega),
    copyLoop_getD_lt _ _ hi8 (by omega)]

/-- Witness for the amended C5: second message `[7,7]` over first `[5×8]`. -/
theorem second_receive_overwrites_witness :
    (CANget (CANreceiveISR 2 (fun _ => 7)
      (CANreceiveISR 8 (fun _ => 5) mbZero))).getD 1 0 = 7 :=
  (second_receive_overwrites mbZero 8 2 (fun _ => 5) (fun _ => 7)
    rfl (by decide) (by decide)).2.1 1 (by decide)

/- ### Operation-level invariant (C10) -/

/-- The driver operations that touch the shared mailbox state, as they appear
in `mscan.c`: the receive interrupt, `CANget`, `data_available`, `data_used`. -/
inductive MscanOp where
  | recv (length : Nat) (rxdsr : Nat → Nat)
  | get
  | avail
  | used

/-- State effect of each operation. `CANget` only reads `rxbuffer` into the
caller's struct and `data_available` only returns the flag: neither writes
the shared state, so both are the identity on `MailboxState`. -/
def applyOp : MscanOp → MailboxState → MailboxState
  | .recv length rxdsr, s => CANreceiveISR length rxdsr s
  | .get, s => s
  | .avail, s => s
  | .used, s => data_used s

/-- Run a sequence of operations from a starting state. -/
def runOps (ops : List MscanOp) (s : MailboxState) : MailboxState :=
  ops.foldl (fun s o => applyOp o s) s

theorem runOps_flag_le (ops : List MscanOp) (s : MailboxState)
    (hs : s.data_available_flag = 0 ∨ s.data_available_flag = 1) :
    (runOps ops s).data_available_flag = 0 ∨
      (runOps ops s).data_available_flag = 1 := by
  induction ops generalizing s with
  | nil => exact hs
  | cons o ops ih =>
    refine ih (applyOp o s) ?_
    cases o <;> simp [applyOp, CANreceiveISR, data_used] <;> exact hs

/-- C10: mailbox invariants. The flag starts at 0 and after any sequence of
operations is exactly 0 or 1; `CANget` and `data_available` do not change
the state; only a receive changes `rxbuffer`; the flag changes only to 1
(by the receive interrupt) or to 0 (by `data_used`). -/
theorem mailbox_invariants :
    initMailbox.data_available_flag = 0 ∧
    (∀ ops : List MscanOp, (runOps ops initMailbox).data_available_flag = 0 ∨
      (runOps ops initMailbox).data_available_flag = 1) ∧
    (∀ s : MailboxState, applyOp .get s = s ∧ applyOp .avail s = s) ∧
    (∀ (o : MscanOp) (s : MailboxState), (applyOp o s).rxbuffer ≠ s.rxbuffer →
      ∃ length rxdsr, o = .recv length rxdsr) ∧
    (∀ (o : MscanOp) (s : MailboxState),
      (applyOp o s).data_available_flag ≠ s.data_available_flag →
      ((∃ length rxdsr, o = .recv length rxdsr) ∧
        (applyOp o s).data_available_flag = 1) ∨
      (o = .used ∧ (applyOp o s).data_available_flag = 0)) := by
  refine ⟨rfl, fun ops => runOps_flag_le ops initMailbox (Or.inl rfl),
    fun s => ⟨rfl, rfl⟩, ?_, ?_⟩
  · intro o s h
    cases o with
    | recv length rxdsr => exact ⟨length, rxdsr, rfl⟩
    | get => exact absurd rfl h
    | avail => exact absurd rfl h
    | used => exact absurd rfl h
  · intro o s h
    cases o with
    | recv length rxdsr => exact Or.inl ⟨⟨length, rxdsr, rfl⟩, rfl⟩
    | get => exact absurd rfl h
    | avail => exact absurd rfl h
    | used => exact Or.inr ⟨rfl, rfl⟩

/-- Witness for C10 on a concrete run: after a receive, a read and a
consume, the flag is 0 or 1. -/
theorem mailbox_invariants_witness :
    (runOps [MscanOp.recv 3 (fun i => i + 1), MscanOp.get, MscanOp.used]
        initMailbox).data_available_flag = 0 ∨
    (runOps [MscanOp.recv 3 (fun i => i + 1), MscanOp.get, MscanOp.used]
        initMailbox).data_available_flag = 1 :=
  mailbox_invariants.2.1 [MscanOp.recv 3 (fun i => i + 1), MscanOp.get, MscanOp.used]

/- ### Transmit path (`CANsend`) -/

/-- The `CANframe` struct from `mscan.h` as used by `CANsend`: an identifier,
a payload byte array (modelled as an index function, so dependence on
out-of-range indices is expressible), a length and a priority. -/
structure CANframe where
  id : Nat
  payload : Nat → Nat
  length : Nat
  priority : Nat

/-- The transmit hardware registers `CANsend` touches. `CANTFLG` holds the
three `TXE` transmit-buffer-empty flag bits (value `0..7`, `0` = all three
buffers full); `CANTXIDR` is the 32-bit dword mapped at `CANTXIDR0`;
`CANTXDSR` the eight sequential data-segment byte registers at `CANTXDSR0`;
`CANTXDLR` the length register; `CANTXTBPR` the priority register. -/
structure TxHardware where
  CANTFLG : Nat
  CANTBSEL : Nat
  CANTXIDR : Nat
  CANTXDSR : List Nat
  CANTXDLR : Nat
  CANTXTBPR : Nat
deriving Repr, DecidableEq

/-- The value read back from `CANTBSEL` after `CANTBSEL = CANTFLG`: the
hardware latches only the lowest set bit of the written flag byte ("Select
lowest tx buffer using tx buffer empty flags"), and `CANTFLG` is a 3-bit
field. -/
def lowTxBit (n : Nat) : Nat :=
  if n &&& 1 ≠ 0 then 1 else if n &&& 2 ≠ 0 then 2 else if n &&& 4 ≠ 0 then 4 else 0

/-- `CANsend`. Returns `(status, frame after the call, registers after the
call)`. When `CANTFLG == 0` (all buffers full) it returns `1` touching
nothing. Otherwise it selects the lowest empty buffer, loads
`(dword)frame->id << (5+16)` into the identifier dword, truncates
`frame->length` to at most 8 *in place*, copies `frame->payload[0..length)`
into the sequential data-segment registers, sets the length and priority
registers, and writes the selected buffer bit back to `CANTFLG` to release
it (the subsequent busy-wait for transmission completion reads hardware and
changes no further register programmed here). -/
def CANsend (frame : CANframe) (hw : TxHardware) :
    Nat × CANframe × TxHardware :=
  if hw.CANTFLG = 0 then (1, frame, hw)
  else
    let txbuffer := lowTxBit hw.CANTFLG
    let hw1 := { hw with CANTBSEL := txbuffer,
                         CANTXIDR := (frame.id <<< (5 + 16)) % 2 ^ 32 }
    let frame1 := if frame.length > 8 then { frame with length := 8 } else frame
    let hw2 := { hw1 with CANTXDSR := copyLoop hw1.CANTXDSR frame1.payload frame1.length }
    let hw3 := { hw2 with CANTXDLR := frame1.length, CANTXTBPR := frame1.priority,
                          CANTFLG := txbuffer }
    (0, frame1, hw3)

/-- C2: `CANsend` rejects exactly when the combined `TXE` flag field is zero
— a single test across all three buffers — and on rejection it returns the
non-zero status `1` with every hardware transmit register unchanged and the
frame untouched. -/
theorem send_buffers_full (frame : CANframe) (hw : TxHardware) :
    ((CANsend frame hw).1 ≠ 0 ↔ hw.CANTFLG = 0) ∧
    (hw.CANTFLG = 0 → CANsend frame hw = (1, frame, hw)) := by
  by_cases h : hw.CANTFLG = 0 <;> simp [CANsend, h]

/-- A transmit register file with one free buffer, used by witnesses. -/
def hwFree : TxHardware :=
  { CANTFLG := 1, CANTBSEL := 0, CANTXIDR := 0,
    CANTXDSR := List.replicate 8 0, CANTXDLR := 0, CANTXTBPR := 0 }

/-- A transmit register file with all buffers full, used by witnesses. -/
def hwFull : TxHardware :=
  { CANTFLG := 0, CANTBSEL := 0, CANTXIDR := 0,
    CANTXDSR := List.replicate 8 0, CANTXDLR := 0, CANTXTBPR := 0 }

/-- Witness frame `{id: 0x123, payload: [1,2,3], length: 3, priority: 0}`. -/
def frame123 : CANframe :=
  { id := 0x123, payload := fun i => [1, 2, 3].getD i 0, length := 3, priority := 0 }

/-- Witness for C2: with all buffers full, the call is rejected untouched. -/
theorem send_buffers_full_witness :
    CANsend frame123 hwFull = (1, frame123, hwFull) :=
  (send_buffers_full frame123 hwFull).2 rfl

/-- C3: for a frame with `length > 8` and a free buffer, `CANsend` succeeds
(status 0), programs the length register with 8, writes exactly the first 8
payload bytes into the 8 data-segment registers, and never reads
`payload[8..length)`: the status and hardware outcome coincide for any
frame agreeing on id, length, priority and the first 8 payload bytes. -/
theorem send_truncates (frame : CANframe) (hw : TxHardware)
    (hfree : hw.CANTFLG ≠ 0) (hlen : frame.length > 8)
    (hdsr : hw.CANTXDSR.length = 8) :
    (CANsend frame hw).1 = 0 ∧
    (CANsend frame hw).2.2.CANTXDLR = 8 ∧
    (∀ i, i < 8 → (CANsend frame hw).2.2.CANTXDSR.getD i 0 = frame.payload i) ∧
    (∀ g : CANframe, g.id = frame.id → g.length = frame.length →
      g.priority = frame.priority → (∀ i, i < 8 → g.payload i = frame.payload i) →
      (CANsend g hw).1 = (CANsend frame hw).1 ∧
      (CANsend g hw).2.2 = (CANsend frame hw).2.2) := by
  have hcl : (if frame.length > 8 then { frame with length := 8 } else frame) =
      { frame with length := 8 } := if_pos hlen
  refine ⟨by simp [CANsend, hfree], ?_, ?_, ?_⟩
  · simp [CANsend, hfree, hcl]
  · intro i hi
    simp only [CANsend, if_neg hfree, hcl]
    exact copyLoop_getD_lt _ _ hi (by omega)
  · intro g hid hl hp hpay
    have hgl : g.length > 8 := by omega
    simp only [CANsend, if_neg hfree, if_pos hlen, if_pos hgl]
    refine ⟨trivial, ?_⟩
    rw [hid, hp, copyLoop_congr hw.CANTXDSR g.payload frame.payload 8
      fun i hi => hpay i hi]

/-- Witness frame with length 9 for C3: payload byte `i` is `i + 1`. -/
def frameLong : CANframe :=
  { id := 5, payload := fun i => i + 1, length := 9, priority := 2 }

/-- Witness for C3 at a length-9 frame: success, length register 8, byte 7
of the data-segment registers is payload byte 7. -/
theorem send_truncates_witness :
    (CANsend frameLong hwFree).1 = 0 ∧
    (CANsend frameLong hwFree).2.2.CANTXDLR = 8 ∧
    (CANsend frameLong hwFree).2.2.CANTXDSR.getD 7 0 = 8 :=
  ⟨(send_truncates frameLong hwFree (by decide) (by decide) rfl).1,
   (send_truncates frameLong hwFree (by decide) (by decide) rfl).2.1,
   (send_truncates frameLong hwFree (by decide) (by decide) rfl).2.2.1 7 (by decide)⟩

/-- Unfolding of `CANsend` on the success path (some buffer free). -/
theorem CANsend_of_free (frame : CANframe) (hw : TxHardware)
    (hfree : hw.CANTFLG ≠ 0) :
    CANsend frame hw =
      (0, (if frame.length > 8 then { frame with length := 8 } else frame),
       { hw with CANTBSEL := lowTxBit hw.CANTFLG,
                 CANTXIDR := (frame.id <<< (5 + 16)) % 2 ^ 32,
                 CANTXDSR := copyLoop hw.CANTXDSR frame.payload (min frame.length 8),
                 CANTXDLR := min frame.length 8,
                 CANTXTBPR := frame.priority,
                 CANTFLG := lowTxBit hw.CANTFLG }) := by
  unfold CANsend
  rw [if_neg hfree]
  by_cases h : frame.length > 8
  · have hm : min frame.length 8 = 8 := by omega
    simp [h, hm]
  · have hm : min frame.length 8 = frame.length := by omega
    simp [h, hm]

/-- C4: with a free buffer and an 11-bit identifier, `CANsend` loads the
identifier dword with `id << (5+16)` — so its upper 16-bit half (the
`CANTXIDR0/1` pair) holds `id << 5` — copies payload bytes
`0..min(length,8)-1` in order into the sequential data-segment registers,
and programs the length register with the clamped length and the priority
register with the frame's priority. -/
theorem send_loads_registers (frame : CANframe) (hw : TxHardware)
    (hfree : hw.CANTFLG ≠ 0) (hid : frame.id < 2 ^ 11)
    (hdsr : hw.CANTXDSR.length = 8) :
    (CANsend frame hw).2.2.CANTXIDR = frame.id <<< (5 + 16) ∧
    (CANsend frame hw).2.2.CANTXIDR / 2 ^ 16 = frame.id <<< 5 ∧
    (∀ i, i < min frame.length 8 →
      (CANsend frame hw).2.2.CANTXDSR.getD i 0 = frame.payload i) ∧
    (CANsend frame hw).2.2.CANTXDLR = min frame.length 8 ∧
    (CANsend frame hw).2.2.CANTXTBPR = frame.priority := by
  have hlt : frame.id <<< (5 + 16) < 2 ^ 32 := by
    rw [Nat.shiftLeft_eq]
    norm_num at hid ⊢
    omega
  rw [CANsend_of_free frame hw hfree]
  refine ⟨Nat.mod_eq_of_lt hlt, ?_, ?_, rfl, rfl⟩
  · show (frame.id <<< (5 + 16)) % 2 ^ 32 / 2 ^ 16 = frame.id <<< 5
    rw [Nat.mod_eq_of_lt hlt, Nat.shiftLeft_eq, Nat.shiftLeft_eq]
    norm_num
    omega
  · intro i hi
    exact copyLoop_getD_lt _ _ hi (by omega)

/-- Witness for C4, the spec's scenario: `id 0x123`, payload `[1,2,3]`,
length 3, priority 0, a free buffer: identifier half-word `0x123 << 5`,
data-segment bytes `1,2,3`, length register 3, priority register 0. -/
theorem send_loads_registers_witness :
    (CANsend frame123 hwFree).2.2.CANTXIDR / 2 ^ 16 = 0x123 <<< 5 ∧
    (CANsend frame123 hwFree).2.2.CANTXDSR.getD 0 0 = 1 ∧
    (CANsend frame123 hwFree).2.2.CANTXDSR.getD 1 0 = 2 ∧
    (CANsend frame123 hwFree).2.2.CANTXDSR.getD 2 0 = 3 ∧
    (CANsend frame123 hwFree).2.2.CANTXDLR = 3 ∧
    (CANsend frame123 hwFree).2.2.CANTXTBPR = 0 :=
  ⟨(send_loads_registers frame123 hwFree (by decide) (by decide) rfl).2.1,
   (send_loads_registers frame123 hwFree (by decide) (by decide) rfl).2.2.1 0 (by decide),
   (send_loads_registers frame123 hwFree (by decide) (by decide) rfl).2.2.1 1 (by decide),
   (send_loads_registers frame123 hwFree (by decide) (by decide) rfl).2.2.1 2 (by decide),
   (send_loads_registers frame123 hwFree (by decide) (by decide) rfl).2.2.2.1,
   (send_loads_registers frame123 hwFree (by decide) (by decide) rfl).2.2.2.2⟩

/-- C7 is false as stated: `CANsend` writes the caller's frame. With a free
buffer and a frame of length 9, the frame's `length` field is 8 after the
call — the in-place truncation `frame->length = 8` mutates the caller's
`CANframe`, not only hardware state. -/
theorem send_mutates_frame_counterexample :
    (CANsend frameLong hwFree).2.1.length = 8 ∧ frameLong.length = 9 :=
  ⟨rfl, rfl⟩

/-- C7 amended: `CANsend` leaves the caller's identifier, payload and
priority fields unchanged; the `length` field is also unchanged except when
a buffer is free and `length > 8`, in which case it is clamped to 8 in
place. -/
theorem send_frame_effect (frame : CANframe) (hw : TxHardware) :
    (CANsend frame hw).2.1.id = frame.id ∧
    (CANsend frame hw).2.1.payload = frame.payload ∧
    (CANsend frame hw).2.1.priority = frame.priority ∧
    (CANsend frame hw).2.1.length =
      (if hw.CANTFLG ≠ 0 ∧ frame.length > 8 then 8 else frame.length) := by
  by_cases h : hw.CANTFLG = 0
  · simp [CANsend, h]
  · by_cases h2 : frame.length > 8 <;> simp [CANsend, h, h2]

/- ### Bus timing parameters (`CANinit`) -/

/-- Modelled from the spec: the numeric value behind `MSCAN_CLK_SRC_BUS` —
the source comment fixes the MSCAN clock to the 8 MHz bus clock; the macro
encodings live in `mscan.h`, which is not in the snapshot. -/
def MSCAN_CLOCK_HZ : Nat := 8000000

/-- Modelled from the spec: the prescaler selected by
`SET_MSCAN_PRESCALE(MSCAN_PRESCALE_1)` ("Set baud rate prescaler value to 1"). -/
def MSCAN_PRESCALE : Nat := 1

/-- Modelled from the spec: the quanta count selected by
`SET_MSCAN_TIME_SEG1(MSCAN_TIME_SEG1_4)` ("bit time of 8 time quanta (1+4+3)"). -/
def MSCAN_TIME_SEG1 : Nat := 4

/-- Modelled from the spec: the quanta count selected by
`SET_MSCAN_TIME_SEG2(MSCAN_TIME_SEG2_3)`. -/
def MSCAN_TIME_SEG2 : Nat := 3

/-- `1 + time_seg1 + time_seg2`, the quanta per bit time (source comment). -/
def quantaPerBit : Nat := 1 + MSCAN_TIME_SEG1 + MSCAN_TIME_SEG2

/-- `b = f/KN`: bit rate from clock, prescaler and quanta per bit (source
comment block above `CANinit`). -/
def bitRate : Nat := MSCAN_CLOCK_HZ / (MSCAN_PRESCALE * quantaPerBit)

/-- C8: the compile-time timing parameters satisfy the controller
constraints (8–25 total quanta, seg1 in 4..16, seg2 in 2..8) and give
exactly 8 quanta per bit and a 1 Mbit/s bit rate from the 8 MHz clock. -/
theorem timing_parameters_ok :
    (8 ≤ quantaPerBit ∧ quantaPerBit ≤ 25) ∧
    (4 ≤ MSCAN_TIME_SEG1 ∧ MSCAN_TIME_SEG1 ≤ 16) ∧
    (2 ≤ MSCAN_TIME_SEG2 ∧ MSCAN_TIME_SEG2 ≤ 8) ∧
    quantaPerBit = 8 ∧ bitRate = 1000000 := by decide

/- ### Acceptance filter (`CANinit`) -/

/-- 16-bit one's complement, the effect of C's `~` on a 16-bit `word`. -/
def not16 (x : Nat) : Nat := (2 ^ 16 - 1) ^^^ x

/-- The first-bank acceptance registers programmed by `CANinit`. -/
structure FilterRegs where
  CANIDMR0 : Nat
  CANIDAR0 : Nat
deriving Repr, DecidableEq

/-- The filter programming in `CANinit` (first level of the first bank, in
16-bit mode): `CANIDMR0/1 = 0x0007 | ~(id << 5)` and `CANIDAR0/1 = id << 5`,
both stored as 16-bit words. -/
def CANinit (id : Nat) : FilterRegs :=
  { CANIDMR0 := 0x0007 ||| not16 ((id <<< 5) % 2 ^ 16),
    CANIDAR0 := (id <<< 5) % 2 ^ 16 }

/-- Modelled from the spec: the MSCAN acceptance hardware itself is outside
the repository. Per the spec, the filter "accepts only frames whose
identifier matches under the mask": a frame's 16-bit identifier-register
value is accepted iff it agrees with the acceptance register on every bit
position the mask does not mark don't-care (mask bit 1 = don't-care). -/
def acceptsFrame (f : FilterRegs) (rx16 : Nat) : Bool :=
  ((rx16 ^^^ f.CANIDAR0) &&& not16 f.CANIDMR0) == 0

/-- C6 is false as stated: with `initialize(0x123)` the filter also accepts
a frame with identifier `0x7FF ≠ 0x123` — the mask term `~(id << 5)` marks
every zero bit of the filter identifier don't-care, so matching is not
confined to the trailing 3 alignment bits. -/
theorem filter_accepts_nonmatching :
    acceptsFrame (CANinit 0x123) (0x7FF <<< 5) = true ∧ (0x7FF : Nat) ≠ 0x123 := by
  decide

/-- C6 amended: `CANinit` loads the acceptance register with
`filter_id << 5` (the hardware-aligned position), but the programmed mask
`0x0007 | ~(id << 5)` marks don't-care not only the trailing 3 alignment
bits and the bits outside the 11-bit identifier width (the RTR/IDE bits)
but also every bit position where `filter_id` is 0: an incoming 11-bit
identifier is accepted iff it has a 1 in every position where `filter_id`
does (`id &&& rx = id`), regardless of the trailing 5 register bits. -/
theorem filter_superset_match (id rx t : Nat) (hid : id < 2 ^ 11)
    (_hrx : rx < 2 ^ 11) (ht : t < 2 ^ 5) :
    (CANinit id).CANIDAR0 = id <<< 5 ∧
    (acceptsFrame (CANinit id) ((rx <<< 5) ||| t) = true ↔ id &&& rx = id) := by
  have hid5 : id <<< 5 < 2 ^ 16 := by
    rw [Nat.shiftLeft_eq]
    norm_num at hid ⊢
    omega
  have hmod : (id <<< 5) % 2 ^ 16 = id <<< 5 := Nat.mod_eq_of_lt hid5
  have hc : not16 (0x0007 ||| not16 (id <<< 5)) = id <<< 5 := by
    apply Nat.eq_of_testBit_eq
    intro i
    have h7 : (0x0007 : Nat) = 2 ^ 3 - 1 := by norm_num
    rw [h7]
    simp only [not16, Nat.testBit_xor, Nat.testBit_or, Nat.testBit_two_pow_sub_one,
      Nat.testBit_shiftLeft]
    by_cases h16 : i < 16
    · by_cases h5 : 5 ≤ i
      · have h3 : ¬ i < 3 := by omega
        simp [h16, h5, h3]
      · by_cases h3 : i < 3 <;> simp [h16, h5, h3]
    · have h5 : 5 ≤ i := by omega
      have h3 : ¬ i < 3 := by omega
      have hb : id.testBit (i - 5) = false :=
        Nat.testBit_lt_two_pow
          (lt_of_lt_of_le hid (Nat.pow_le_pow_right (by norm_num) (by omega)))
      simp [h16, h5, h3, hb]
  refine ⟨show (id <<< 5) % 2 ^ 16 = id <<< 5 from hmod, ?_⟩
  have hval : acceptsFrame (CANinit id) ((rx <<< 5) ||| t) = true ↔
      ((((rx <<< 5) ||| t) ^^^ (id <<< 5)) &&& (id <<< 5)) = 0 := by
    rw [acceptsFrame, CANinit, hmod]
    show (((((rx <<< 5) ||| t) ^^^ (id <<< 5)) &&&
      not16 (0x0007 ||| not16 (id <<< 5))) == 0) = true ↔ _
    rw [hc, beq_iff_eq]
  rw [hval]
  have htb : ∀ j, (((rx <<< 5) ||| t) ^^^ (id <<< 5)).testBit (j + 5) =
      (rx.testBit j ^^ id.testBit j) := by
    intro j
    have htj : t.testBit (j + 5) = false :=
      Nat.testBit_lt_two_pow
        (lt_of_lt_of_le ht (Nat.pow_le_pow_right (by norm_num) (by omega)))
    simp [Nat.testBit_xor, Nat.testBit_or, Nat.testBit_shiftLeft, htj,
      Nat.le_add_left]
  constructor
  · intro h
    apply Nat.eq_of_testBit_eq
    intro j
    have hj := congrArg (fun n => n.testBit (j + 5)) h
    simp only [Nat.zero_testBit, Nat.testBit_and, htb j,
      Nat.testBit_shiftLeft] at hj
    have hj5 : (decide (j + 5 ≥ 5) && id.testBit (j + 5 - 5)) = id.testBit j := by
      simp
    rw [hj5] at hj
    rw [Nat.testBit_and]
    cases hrxj : rx.testBit j <;> cases hidj : id.testBit j <;>
      simp [hrxj, hidj] at hj ⊢
  · intro h
    apply Nat.eq_of_testBit_eq
    intro i
    rw [Nat.zero_testBit, Nat.testBit_and]
    by_cases h5 : 5 ≤ i
    · obtain ⟨j, rfl⟩ : ∃ j, i = j + 5 := ⟨i - 5, by omega⟩
      rw [htb j]
      have hidj : (id <<< 5).testBit (j + 5) = id.testBit j := by
        simp [Nat.testBit_shiftLeft]
      rw [hidj]
      have hand := congrArg (fun n => n.testBit j) h
      simp only [Nat.testBit_and] at hand
      cases hrxj : rx.testBit j <;> cases hidj2 : id.testBit j <;>
        simp [hrxj, hidj2] at hand ⊢
    · have : (id <<< 5).testBit i = false := by
        simp [Nat.testBit_shiftLeft]
        omega
      simp [this]

/-- Witness for the amended C6: with filter id `0x123`, the aligned
identifier register value, acceptance of `0x123` itself, and acceptance of
the superset identifier `0x7FF` (whose bits cover `0x123`). -/
theorem filter_superset_match_witness :
    (CANinit 0x123).CANIDAR0 = 0x123 <<< 5 ∧
    (acceptsFrame (CANinit 0x123) ((0x123 <<< 5) ||| 0) = true ↔
      (0x123 : Nat) &&& 0x123 = 0x123) ∧
    (acceptsFrame (CANinit 0x123) ((0x7FF <<< 5) ||| 0) = true ↔
      (0x123 : Nat) &&& 0x7FF = 0x123) :=
  ⟨(filter_superset_match 0x123 0x123 0 (by decide) (by decide) (by decide)).1,
   (filter_superset_match 0x123 0x123 0 (by decide) (by decide) (by decide)).2,
   (filter_superset_match 0x123 0x7FF 0 (by decide) (by decide) (by decide)).2⟩

/- ### Interleaving model for the `CANget` / `CANreceiveISR` race (C9) -/

/-- Modelled from the spec: the interrupt-masking semantics of
`DisableInterrupts`/`EnableInterrupts` (macros from `hidef.h`, outside the
repository). A foreground/interrupt interleaving state: the shared mailbox,
whether interrupts are currently enabled, and the bytes `CANget` has copied
into the caller's struct so far. -/
structure RaceState where
  mb : MailboxState
  intEnabled : Bool
  out : List Nat

/-- One micro-step of `CANget`: step 0 is `DisableInterrupts`, steps
`1..PAYLOAD_SIZE` copy `rxbuffer[0..PAYLOAD_SIZE)` one byte each, the last
step is `EnableInterrupts`. -/
def getStep (j : Nat) (st : RaceState) : RaceState :=
  if j = 0 then { st with intEnabled := false }
  else if j ≤ PAYLOAD_SIZE then
    { st with out := st.out ++ [st.mb.rxbuffer.getD (j - 1) 0] }
  else { st with intEnabled := true }

/-- The micro-step indices of one `CANget` call: disable, 8 byte copies,
enable. -/
def getSteps : List Nat := [0, 1, 2, 3, 4, 5, 6, 7, 8, 9]

/-- A hardware receive-interrupt attempt: `CANreceiveISR` runs only if
interrupts are enabled; while masked it does not run (the copy loop of
`CANget` cannot be preempted). -/
def isrAttempt (length : Nat) (rxdsr : Nat → Nat) (st : RaceState) : RaceState :=
  if st.intEnabled then { st with mb := CANreceiveISR length rxdsr st.mb } else st

def runSteps (js : List Nat) (st : RaceState) : RaceState :=
  js.foldl (fun s j => getStep j s) st

/-- One interleaved execution of `CANget` racing with a single receive
interrupt: the interrupt attempt is scheduled after the first `p` of the 10
micro-steps of `CANget` (`p = 10` places it after the call). -/
def raceRun (p length : Nat) (rxdsr : Nat → Nat) (st : RaceState) : RaceState :=
  runSteps (getSteps.drop p) (isrAttempt length rxdsr (runSteps (getSteps.take p) st))

/-- C9: however the single receive interrupt is interleaved with `CANget`,
the bytes `CANget` delivers are never a mix of the two messages: they are
exactly the mailbox bytes before the interrupt ran, or exactly the mailbox
bytes after it ran. The critical section makes the whole fixed-size copy
atomic with respect to the handler. -/
theorem get_never_mixes (p L : Nat) (rxdsr : Nat → Nat) (mb : MailboxState)
    (hp : p ≤ 10) :
    (raceRun p L rxdsr { mb := mb, intEnabled := true, out := [] }).out =
        CANget mb ∨
    (raceRun p L rxdsr { mb := mb, intEnabled := true, out := [] }).out =
        CANget (CANreceiveISR L rxdsr mb) := by
  interval_cases p <;>
    simp [raceRun, runSteps, getSteps, getStep, isrAttempt, CANget,
      CANreceiveISR, PAYLOAD_SIZE, List.range_succ]

/-- Witness for C9: the interrupt attempt lands in the middle of the copy
(`p = 4`); the masked handler is deferred and the delivered bytes are the
pre-interrupt mailbox contents. -/
theorem get_never_mixes_witness :
    (raceRun 4 2 (fun _ => 7) { mb := mbNines, intEnabled := true, out := [] }).out =
        CANget mbNines ∨
    (raceRun 4 2 (fun _ => 7) { mb := mbNines, intEnabled := true, out := [] }).out =
        CANget (CANreceiveISR 2 (fun _ => 7) mbNines) :=
  get_never_mixes 4 2 (fun _ => 7) mbNines (by decide)

end Mscan
